import Mathlib

/-!
Verification of the stock-dashboard component (`src/stockDashboard.js`).

The repository file contains two revisions of the same React component; the
embedding below follows the fuller revision (the one with HTTP/provider/rate-
limit/missing-field error classification and the `companyNames[symbol] ||
symbol` fallback).  The filter, sort-comparator and `handleSort` logic is
identical in both revisions.

Modelling conventions:
  * Prices are rationals (the well-formed decimal strings of the API payload
    after `parseFloat`); `Number.prototype.toFixed(2)` is `toFixed2` below
    (round the magnitude half-up at two decimals, then prefix the sign).
  * `parseInt(...).toLocaleString()` is `toLocale` (decimal digits grouped in
    threes by commas, the en-US default).
  * `parseFloat` on arbitrary strings is `parseFloatQ : String → Option ℚ`
    (`none` models `NaN`); it parses an optional sign, an integer part, and an
    optional fraction, stopping at the first other character, exactly as the
    comparator's inputs require (no exponents occur in this program).
  * The dashboard's refresh (`fetchStockData`) is a function from the API key,
    a per-symbol response environment and the current component state to the
    next state plus the list of issued HTTP requests; `Promise.all` is
    `collectQuotes` (all requests are issued, the first rejection wins, a
    single rejection discards every fulfilled result).
  * JavaScript truthiness on string-or-undefined values (`!API_KEY`,
    `if (data['Error Message'])`, `x || y`) is `jsTruthy` / the explicit
    empty-string tests below.
-/

/-- One sample of the `Time Series (5min)` object: the `4. close`, `2. high`,
`3. low` and `5. volume` fields of a well-formed payload, already parsed. -/
structure Sample where
  close : ℚ
  high : ℚ
  low : ℚ
  volume : Nat
deriving DecidableEq

/-- The normalized quote record returned per symbol; every field is a string,
exactly as produced by the component. -/
structure Quote where
  symbol : String
  name : String
  price : String
  change : String
  changePercent : String
  volume : String
  high : String
  low : String
  lastUpdated : String
deriving DecidableEq

/-- A raw HTTP response for one symbol: `response.ok`, `response.status`, and
the decoded JSON body's `Error Message`, `Note` and `Time Series (5min)`
members (`none` = member absent). -/
structure ApiResponse where
  ok : Bool
  status : Nat
  errorMessage : Option String
  note : Option String
  timeSeries : Option (List (String × Sample))
deriving DecidableEq

/-- Dashboard component state: the displayed quotes, the loading flag and the
error banner. -/
structure DashState where
  stocks : List Quote
  loading : Bool
  error : Option String
deriving DecidableEq

/-- The classified per-request failures thrown inside the per-symbol fetch.
`emptySeries` models the TypeError raised when the series object has no keys
(`timeSeries[timestamps[0]]` is `undefined`); it rejects the batch like any
other throw. -/
inductive FetchErr where
  | http (status : Nat)
  | provider (msg : String)
  | rateLimited
  | noSeries
  | emptySeries
deriving DecidableEq

/-- JavaScript truthiness of a string-or-undefined value: `undefined` and the
empty string are falsy. -/
def jsTruthy : Option String → Bool
  | some s => !(s == "")
  | none => false

/-- The decimal digit character for `n < 10`. -/
def digitChar (n : Nat) : Char := Char.ofNat (48 + n)

/-- Fuel-driven decimal rendering of a natural number (most significant digit
first); the fuel is an upper bound on the digit count. -/
def natDigitsGo : Nat → Nat → List Char
  | 0, _ => []
  | f + 1, n => if n < 10 then [digitChar n] else natDigitsGo f (n / 10) ++ [digitChar (n % 10)]

/-- Decimal digits of a natural number. -/
def natDigits (n : Nat) : List Char := natDigitsGo (n + 1) n

/-- `Number.prototype.toFixed(2)`: round the magnitude to the nearest
hundredth (ties away from zero), render with exactly two fraction digits, and
prefix a minus sign for negative inputs.  The rounded numerator is computed on
the rational's raw numerator and denominator so that
`(x.num.natAbs * 200 + x.den) / (2 * x.den)` is exactly
the floor of `|x| * 100 + 1 / 2`. -/
def toFixed2 (x : ℚ) : String :=
  let n : Nat := (x.num.natAbs * 200 + x.den) / (2 * x.den)
  let body := natDigits (n / 100) ++ '.' :: [digitChar (n % 100 / 10), digitChar (n % 100 % 10)]
  if x.num < 0 then ⟨'-' :: body⟩ else ⟨body⟩

/-- Group a reversed digit list in threes with commas (helper for
`toLocale`). -/
def group3rev (l : List Char) : List Char :=
  match l with
  | a :: b :: c :: rest => if rest.isEmpty then l else a :: b :: c :: ',' :: group3rev rest
  | l => l

/-- `parseInt(v).toLocaleString()` on a natural number: decimal digits with
comma grouping every three digits (en-US default grouping). -/
def toLocale (n : Nat) : String := ⟨(group3rev (natDigits n).reverse).reverse⟩

/-- Numeric value of a list of decimal digit characters. -/
def natOfDigits (l : List Char) : Nat := l.foldl (fun a c => a * 10 + (c.toNat - 48)) 0

/-- Unsigned part of `parseFloat`: leading integer digits, then an optional
point and fraction digits; `none` when no digit is consumed. -/
def parseUnsignedQ (l : List Char) : Option ℚ :=
  let ip := l.takeWhile Char.isDigit
  let r := l.drop ip.length
  let fp := match r with
    | '.' :: r2 => r2.takeWhile Char.isDigit
    | _ => []
  if ip.isEmpty && fp.isEmpty then none
  else some (mkRat (natOfDigits ip * 10 ^ fp.length + natOfDigits fp) (10 ^ fp.length))

/-- JavaScript `parseFloat` on the strings this program produces: optional
sign, digits, optional fraction; everything after the numeric prefix is
ignored; `none` models `NaN`. -/
def parseFloatQ (s : String) : Option ℚ :=
  match s.data with
  | '-' :: r => (parseUnsignedQ r).map (fun q => -q)
  | '+' :: r => parseUnsignedQ r
  | l => parseUnsignedQ l

/-- JavaScript `<` on strings: code-unit lexicographic comparison. -/
def strLtB : List Char → List Char → Bool
  | [], [] => false
  | [], _ :: _ => true
  | _ :: _, [] => false
  | a :: as, b :: bs =>
    if a.toNat < b.toNat then true
    else if b.toNat < a.toNat then false
    else strLtB as bs

/-- JavaScript `<` on strings. -/
def strLt (a b : String) : Bool := strLtB a.data b.data

/-- Exact rational subtraction on raw numerator/denominator pairs (the
JavaScript `-` on the exact decimal values of this program); equal to `a - b`
by `qsub_eq` below. -/
def qsub (a b : ℚ) : ℚ := mkRat (a.num * b.den - b.num * a.den) (a.den * b.den)

/-- Exact rational multiplication; equal to `a * b` by `qmul_eq` below. -/
def qmul (a b : ℚ) : ℚ := mkRat (a.num * b.num) (a.den * b.den)

/-- Exact rational inverse; equal to `a⁻¹` by `qinv_eq` below. -/
def qinv (b : ℚ) : ℚ :=
  if b.num < 0 then mkRat (-(b.den : Int)) b.num.natAbs else mkRat b.den b.num.natAbs

/-- Exact rational division (the JavaScript `/` on the exact decimal values of
this program); equal to `a / b` by `qdiv_eq` below. -/
def qdiv (a b : ℚ) : ℚ := qmul a (qinv b)

/-- The static `companyNames` object literal. -/
def companyNames (s : String) : Option String :=
  if s = "AAPL" then some "Apple Inc."
  else if s = "GOOGL" then some "Alphabet Inc."
  else if s = "MSFT" then some "Microsoft Corporation"
  else if s = "AMZN" then some "Amazon.com Inc."
  else if s = "TSLA" then some "Tesla Inc."
  else if s = "META" then some "Meta Platforms Inc."
  else if s = "NVDA" then some "NVIDIA Corporation"
  else if s = "NFLX" then some "Netflix Inc."
  else none

/-- `companyNames[symbol] || symbol`: the mapped name unless it is absent or
falsy (empty), in which case the symbol itself. -/
def jsName (sym : String) : String :=
  match companyNames sym with
  | some n => if n = "" then sym else n
  | none => sym

/-- The tracked symbols of the component. -/
def stockSymbols : List String := ["AAPL", "GOOGL", "MSFT", "AMZN", "TSLA", "META", "NVDA", "NFLX"]

/-- The per-symbol query URL. -/
def queryUrl (key sym : String) : String :=
  "https://www.alphavantage.co/query?function=TIME_SERIES_INTRADAY&symbol=" ++ sym ++
    "&interval=5min&apikey=" ++ key ++ "&outputsize=compact"

/-- Normalisation of one well-formed time series into a `Quote`: the latest
sample is the series' first key in its incidental order, the previous sample
the second key (falling back to the latest when there is only one), `change`
and `changePercent` are derived and all display fields formatted.  `none`
models the TypeError thrown on a series with no keys. -/
def mkQuote (sym : String) (ts : List (String × Sample)) : Option Quote :=
  match ts with
  | [] => none
  | (t0, s0) :: rest =>
    let currentPrice := s0.close
    let previousPrice := match rest.head? with
      | some p => p.2.close
      | none => currentPrice
    let change := qsub currentPrice previousPrice
    let changePercent := if previousPrice ≠ 0 then qmul (qdiv change previousPrice) 100 else 0
    some {
      symbol := sym
      name := jsName sym
      price := toFixed2 currentPrice
      change := toFixed2 change
      changePercent := toFixed2 changePercent
      volume := toLocale s0.volume
      high := toFixed2 s0.high
      low := toFixed2 s0.low
      lastUpdated := t0
    }

/-- The per-symbol fetch body: classify the failure modes in source order
(HTTP status, provider error message, rate-limit note, missing series), then
normalise. -/
def fetchOne (sym : String) (r : ApiResponse) : Except FetchErr Quote :=
  if r.ok = false then .error (.http r.status)
  else if jsTruthy r.errorMessage then .error (.provider (r.errorMessage.getD ""))
  else if jsTruthy r.note then .error .rateLimited
  else
    match r.timeSeries with
    | none => .error .noSeries
    | some ts =>
      match mkQuote sym ts with
      | some q => .ok q
      | none => .error .emptySeries

/-- The human-readable message of each thrown error, as in the source. -/
def errMessage : FetchErr → String
  | .http st => "HTTP error! status: " ++ (⟨natDigits st⟩ : String)
  | .provider m => m
  | .rateLimited => "API call frequency limit reached. Please try again in a minute."
  | .noSeries => "No time series data available"
  | .emptySeries => "Cannot read properties of undefined"

/-- `Promise.all`: every request has been issued; the result is the list of
fulfilled values, unless any promise rejected, in which case the whole batch
rejects (here deterministically with the leftmost rejection). -/
def collectQuotes : List (Except FetchErr Quote) → Except FetchErr (List Quote)
  | [] => .ok []
  | .ok q :: rest =>
    match collectQuotes rest with
    | .ok qs => .ok (q :: qs)
    | .error e => .error e
  | .error e :: _ => .error e

/-- The error banner shown when the API key is missing or empty. -/
def apiKeyErr : String := "API key not found. Please check your .env.local file."

/-- One refresh: set loading, clear the error, short-circuit on a missing or
empty API key, otherwise fetch every symbol, and either replace the quote
list (all fetches fulfilled) or keep it and surface the error message (any
fetch rejected).  The second component lists the HTTP requests issued. -/
def fetchStockData (key : Option String) (resp : String → ApiResponse) (s : DashState) :
    DashState × List String :=
  let s1 : DashState := { s with loading := true, error := none }
  if jsTruthy key then
    let reqs := stockSymbols.map (fun sym => queryUrl (key.getD "") sym)
    match collectQuotes (stockSymbols.map (fun sym => fetchOne sym (resp sym))) with
    | .ok qs => ({ s1 with stocks := qs, loading := false }, reqs)
    | .error e => ({ s1 with error := some (errMessage e), loading := false }, reqs)
  else
    ({ s1 with error := some apiKeyErr, loading := false }, [])

/-- ASCII lower-casing of one character (`String.prototype.toLowerCase` on the
ASCII strings of this program). -/
def lcChar (c : Char) : Char :=
  if 'A' ≤ c ∧ c ≤ 'Z' then Char.ofNat (c.toNat + 32) else c

/-- Lower-casing of a string. -/
def toLowerStr (s : String) : String := ⟨s.data.map lcChar⟩

/-- Contiguous-substring test on character lists (`String.prototype.includes`). -/
def containsSub : List Char → List Char → Bool
  | n, [] => n.isEmpty
  | n, h :: t => n.isPrefixOf (h :: t) || containsSub n t

/-- `haystack.includes(needle)`. -/
def jsIncludes (hay needle : String) : Bool := containsSub needle.data hay.data

/-- The `.filter` stage of `sortedAndFilteredStocks`: keep a quote when the
lower-cased search term occurs in the lower-cased symbol or name. -/
def filterStocks (term : String) (l : List Quote) : List Quote :=
  l.filter (fun q =>
    jsIncludes (toLowerStr q.symbol) (toLowerStr term) ||
    jsIncludes (toLowerStr q.name) (toLowerStr term))

/-- The sortable quote attributes (`a[sortField]`). -/
inductive SortField where
  | symbol | name | price | change | changePercent | volume | high | low | lastUpdated
deriving DecidableEq

/-- Sort directions. -/
inductive Dir where
  | asc | desc
deriving DecidableEq

/-- Field projection `a[sortField]`. -/
def getField (q : Quote) : SortField → String
  | .symbol => q.symbol
  | .name => q.name
  | .price => q.price
  | .change => q.change
  | .changePercent => q.changePercent
  | .volume => q.volume
  | .high => q.high
  | .low => q.low
  | .lastUpdated => q.lastUpdated

/-- The sort comparator of `sortedAndFilteredStocks`: when `parseFloat` of the
first value is a number both values are compared as numbers (a non-numeric
second value behaves as `NaN`, against which `<` and `>` are false), otherwise
both are compared as strings; ascending returns `a > b ? 1 : -1`, descending
`a < b ? 1 : -1` — never `0`. -/
def cmpQuotes (f : SortField) (d : Dir) (a b : Quote) : Int :=
  let av := getField a f
  let bv := getField b f
  match parseFloatQ av with
  | some x =>
    match d, parseFloatQ bv with
    | .asc, some y => if x > y then 1 else -1
    | .asc, none => -1
    | .desc, some y => if x < y then 1 else -1
    | .desc, none => -1
  | none =>
    match d with
    | .asc => if strLt bv av then 1 else -1
    | .desc => if strLt av bv then 1 else -1

/-- The `.sort` stage: a comparison sort placing `a` before `b` when the
comparator is non-positive. -/
def sortStocks (f : SortField) (d : Dir) (l : List Quote) : List Quote :=
  List.insertionSort (fun a b => cmpQuotes f d a b ≤ 0) l

/-- The full `sortedAndFilteredStocks` pipeline. -/
def sortedAndFilteredStocks (term : String) (f : SortField) (d : Dir) (l : List Quote) : List Quote :=
  sortStocks f d (filterStocks term l)

/-- The header-click sort state. -/
structure SortState where
  field : SortField
  direction : Dir
deriving DecidableEq

/-- `handleSort`: clicking a header sets the field and flips the direction to
descending only when that field was already selected ascending. -/
def handleSort (f : SortField) (s : SortState) : SortState :=
  let d : Dir := if f = s.field ∧ s.direction = Dir.asc then Dir.desc else Dir.asc
  ⟨f, d⟩

/-- The spec's robust selection: explicitly sort the timestamp keys descending
before taking the two most recent samples ("a robust reimplementation must
explicitly sort timestamps descending before selecting the two most recent
samples"). -/
def mkQuoteSpecSorted (sym : String) (ts : List (String × Sample)) : Option Quote :=
  mkQuote sym (List.insertionSort (fun a b => strLt a.1 b.1 = false) ts)

/-- A sample with close 101 (used as the more recent sample in concrete
payloads below). -/
def sampleA : Sample := ⟨101, 102, 100, 5000⟩

/-- A sample with close 100 (used as the older sample in concrete payloads
below). -/
def sampleB : Sample := ⟨100, 102, 99, 4000⟩

/-- An initial dashboard state with no quotes. -/
def st0 : DashState := ⟨[], false, none⟩

/-- A response environment in which every symbol's fetch succeeds with a
two-sample series whose keys are most-recent-first. -/
def respGood : String → ApiResponse := fun _ =>
  ⟨true, 200, none, none, some [("2024-01-02 09:35:00", sampleA), ("2024-01-02 09:30:00", sampleB)]⟩

/-- A response environment in which exactly one symbol's fetch fails (HTTP
500 for MSFT) and every other succeeds. -/
def respBad : String → ApiResponse := fun s =>
  if s = "MSFT" then ⟨false, 500, none, none, none⟩ else respGood s

/-- A quote literal with the given symbol (also used as name), price and
volume strings; the remaining display fields are fixed. -/
def qOf (sym price vol : String) : Quote := ⟨sym, sym, price, "0.00", "0.00", vol, "0.00", "0.00", "t"⟩

/-- A quote whose price string is `toFixed2 9 = "9.00"`. -/
def q9 : Quote := qOf "A" (toFixed2 9) (toLocale 50)

/-- A quote whose price string is `toFixed2 10 = "10.00"`. -/
def q10 : Quote := qOf "B" (toFixed2 10) (toLocale 50)

/-- A quote with volume 999 (rendered `"999"`) and price `"5.00"`. -/
def qv999 : Quote := qOf "A" "5.00" (toLocale 999)

/-- A quote with volume 1000 (rendered `"1,000"`) and the same price
`"5.00"`. -/
def qv1000 : Quote := qOf "B" "5.00" (toLocale 1000)

/-- A two-sample payload whose keys are in ascending (oldest-first) order:
the incidental key order is not most-recent-first. -/
def pUnsorted : List (String × Sample) :=
  [("2024-01-02 09:30:00", sampleB), ("2024-01-02 09:35:00", sampleA)]

/-- The same two samples with keys in descending (most-recent-first) order. -/
def pSorted : List (String × Sample) :=
  [("2024-01-02 09:35:00", sampleA), ("2024-01-02 09:30:00", sampleB)]

theorem qsub_eq (a b : ℚ) : qsub a b = a - b := by
  have ha : ((a.den : ℚ)) ≠ 0 := Nat.cast_ne_zero.mpr a.den_ne_zero
  have hb : ((b.den : ℚ)) ≠ 0 := Nat.cast_ne_zero.mpr b.den_ne_zero
  rw [qsub, Rat.mkRat_eq_div]
  push_cast
  conv_rhs => rw [← Rat.num_div_den a, ← Rat.num_div_den b]
  rw [div_sub_div _ _ ha hb]
  ring_nf

theorem qmul_eq (a b : ℚ) : qmul a b = a * b := by
  rw [qmul, Rat.mkRat_eq_div]
  push_cast
  conv_rhs => rw [← Rat.num_div_den a, ← Rat.num_div_den b]
  rw [div_mul_div_comm]

theorem qinv_eq (b : ℚ) : qinv b = b⁻¹ := by
  rcases lt_trichotomy b.num 0 with hneg | hzero | hpos
  · rw [qinv, if_pos hneg, Rat.mkRat_eq_div]
    push_cast [Int.cast_natAbs]
    rw [abs_of_neg (by exact_mod_cast hneg)]
    conv_rhs => rw [← Rat.num_div_den b]
    rw [inv_div, neg_div_neg_eq]
  · have hb : b = 0 := by
      rw [← Rat.num_div_den b, hzero]
      simp
    subst hb
    rw [qinv]
    norm_num [Rat.mkRat_eq_div]
  · rw [qinv, if_neg (by omega), Rat.mkRat_eq_div]
    push_cast [Int.cast_natAbs]
    rw [abs_of_pos (by exact_mod_cast hpos)]
    conv_rhs => rw [← Rat.num_div_den b]
    rw [inv_div]

theorem qdiv_eq (a b : ℚ) : qdiv a b = a / b := by
  rw [qdiv, qmul_eq, qinv_eq, div_eq_mul_inv]

theorem toFixed2_zero : toFixed2 0 = "0.00" := by decide

theorem strLtB_self : ∀ l : List Char, strLtB l l = false := by
  intro l
  induction l with
  | nil => rfl
  | cons a t ih => simp [strLtB, ih]

theorem strLt_self (s : String) : strLt s s = false := strLtB_self s.data

theorem isPrefixOf_iff_exists (n : List Char) :
    ∀ l : List Char, n.isPrefixOf l = true ↔ ∃ t, l = n ++ t := by
  induction n with
  | nil => intro l; simp [List.isPrefixOf]
  | cons a as ih =>
    intro l
    cases l with
    | nil => simp [List.isPrefixOf]
    | cons b bs =>
      simp only [List.isPrefixOf, Bool.and_eq_true, beq_iff_eq, ih, List.cons_append,
        List.cons.injEq]
      constructor
      · rintro ⟨rfl, t, rfl⟩
        exact ⟨t, rfl, rfl⟩
      · rintro ⟨t, rfl, rfl⟩
        exact ⟨rfl, t, rfl⟩

theorem containsSub_iff (n : List Char) :
    ∀ h : List Char, containsSub n h = true ↔ ∃ p s, h = p ++ n ++ s := by
  intro h
  induction h with
  | nil =>
    simp only [containsSub, List.isEmpty_iff]
    constructor
    · rintro rfl
      exact ⟨[], [], rfl⟩
    · rintro ⟨p, s, hp⟩
      rcases List.append_eq_nil.mp (List.append_eq_nil.mp hp.symm).1 with ⟨-, h2⟩
      exact h2
  | cons a t ih =>
    simp only [containsSub, Bool.or_eq_true, isPrefixOf_iff_exists, ih]
    constructor
    · rintro (⟨s, hs⟩ | ⟨p, s, hp⟩)
      · exact ⟨[], s, by simpa using hs⟩
      · exact ⟨a :: p, s, by simp [hp]⟩
    · rintro ⟨p, s, hp⟩
      cases p with
      | nil => exact Or.inl ⟨s, by simpa using hp⟩
      | cons x xs =>
        rw [List.cons_append, List.cons_append, List.cons.injEq] at hp
        exact Or.inr ⟨xs, s, hp.2⟩

theorem containsSub_nil : ∀ h : List Char, containsSub [] h = true := by
  intro h
  cases h with
  | nil => rfl
  | cons a t => simp [containsSub, List.isPrefixOf]

theorem mkQuote_ok_symbol (sym : String) (ts : List (String × Sample)) (q : Quote)
    (h : mkQuote sym ts = some q) : q.symbol = sym := by
  cases ts with
  | nil => exact absurd h (by simp [mkQuote])
  | cons a rest =>
    obtain ⟨t0, s0⟩ := a
    rw [mkQuote] at h
    injection h with h2
    subst h2
    rfl

theorem fetchOne_ok_symbol (sym : String) (r : ApiResponse) (q : Quote)
    (h : fetchOne sym r = Except.ok q) : q.symbol = sym := by
  rw [fetchOne] at h
  split at h
  · exact absurd h (by simp)
  · split at h
    · exact absurd h (by simp)
    · split at h
      · exact absurd h (by simp)
      · split at h
        · exact absurd h (by simp)
        · split at h
          · rename_i q2 hq2
            injection h with h3
            subst h3
            exact mkQuote_ok_symbol sym _ q2 hq2
          · exact absurd h (by simp)

theorem collectQuotes_ok (g : String → Except FetchErr Quote) :
    ∀ syms : List String, (∀ sym ∈ syms, ∃ q, g sym = Except.ok q ∧ q.symbol = sym) →
      ∃ qs, collectQuotes (syms.map g) = Except.ok qs ∧ qs.map (fun q => q.symbol) = syms := by
  intro syms
  induction syms with
  | nil => exact fun _ => ⟨[], rfl, rfl⟩
  | cons a t ih =>
    intro h
    obtain ⟨q, hg, hs⟩ := h a (List.mem_cons_self a t)
    obtain ⟨qs, hc, hm⟩ := ih (fun x hx => h x (List.mem_cons_of_mem a hx))
    refine ⟨q :: qs, ?_, by simp [hm, hs]⟩
    simp [collectQuotes, hg, hc]

theorem collectQuotes_error :
    ∀ l : List (Except FetchErr Quote), (∃ x ∈ l, ∃ e, x = Except.error e) →
      ∃ e, collectQuotes l = Except.error e := by
  intro l
  induction l with
  | nil => rintro ⟨x, hx, -⟩; exact absurd hx (List.not_mem_nil x)
  | cons a t ih =>
    rintro ⟨x, hx, e, he⟩
    rcases List.mem_cons.mp hx with rfl | hxt
    · subst he
      exact ⟨e, rfl⟩
    · cases a with
      | ok q =>
        obtain ⟨e2, hc⟩ := ih ⟨x, hxt, e, he⟩
        exact ⟨e2, by simp [collectQuotes, hc]⟩
      | error e3 => exact ⟨e3, rfl⟩

theorem jsName_eq (sym : String) : jsName sym = (companyNames sym).getD sym := by
  rw [jsName]
  cases h : companyNames sym with
  | none => rfl
  | some n =>
    have hne : n ≠ "" := by
      rw [companyNames] at h
      repeat' split at h
      all_goals first
        | (injection h with h2; subst h2; decide)
        | exact absurd h (by simp)
    simp [hne]

/-- C1: for every well-formed payload the normalizer's derived fields match
the spec's formulas: with at least two samples, `change` is the latest close
minus the previous close and `changePercent` is `change / previous close ×
100`, both rounded to two decimals by `toFixed(2)`; with exactly one sample
both render as `"0.00"`; and `changePercent` renders as `"0.00"` (a number,
never NaN or undefined) whenever the previous close is `0`. -/
theorem quote_change_fields (sym t0 : String) (s0 : Sample) :
    (∀ (t1 : String) (s1 : Sample) (rest : List (String × Sample)),
      ∃ q, mkQuote sym ((t0, s0) :: (t1, s1) :: rest) = some q ∧
        q.change = toFixed2 (s0.close - s1.close) ∧
        (s1.close ≠ 0 → q.changePercent = toFixed2 ((s0.close - s1.close) / s1.close * 100)) ∧
        (s1.close = 0 → q.changePercent = "0.00")) ∧
    (∃ q, mkQuote sym [(t0, s0)] = some q ∧ q.change = "0.00" ∧ q.changePercent = "0.00") := by
  constructor
  · intro t1 s1 rest
    refine ⟨_, rfl, ?_, ?_, ?_⟩
    · show toFixed2 (qsub s0.close s1.close) = toFixed2 (s0.close - s1.close)
      rw [qsub_eq]
    · intro h
      show toFixed2
          (if s1.close ≠ 0 then qmul (qdiv (qsub s0.close s1.close) s1.close) 100 else 0) = _
      rw [if_pos h, qsub_eq, qdiv_eq, qmul_eq]
    · intro h
      show toFixed2
          (if s1.close ≠ 0 then qmul (qdiv (qsub s0.close s1.close) s1.close) 100 else 0) = "0.00"
      rw [if_neg (not_not_intro h)]
      exact toFixed2_zero
  · refine ⟨_, rfl, ?_, ?_⟩
    · show toFixed2 (qsub s0.close s0.close) = "0.00"
      rw [qsub_eq, sub_self]
      exact toFixed2_zero
    · show toFixed2
          (if s0.close ≠ 0 then qmul (qdiv (qsub s0.close s0.close) s0.close) 100 else 0) = "0.00"
      rcases eq_or_ne s0.close 0 with h | h
      · rw [if_neg (not_not_intro h)]
        exact toFixed2_zero
      · rw [if_pos h, qsub_eq, sub_self, qdiv_eq, zero_div, qmul_eq, zero_mul]
        exact toFixed2_zero

/-- Witness for C1: the spec's own example, closes 101 then 100, gives
`change = toFixed2 (101 - 100) = "1.00"` and
`changePercent = toFixed2 (1 / 100 × 100) = "1.00"`; and a one-sample payload
gives `"0.00"` for both. -/
theorem quote_change_fields_witness :
    (mkQuote "AAPL" [("09:35", sampleA), ("09:30", sampleB)]).map (fun q => q.change) =
      some (toFixed2 (sampleA.close - sampleB.close)) ∧
    (mkQuote "AAPL" [("09:35", sampleA), ("09:30", sampleB)]).map (fun q => q.changePercent) =
      some (toFixed2 ((sampleA.close - sampleB.close) / sampleB.close * 100)) ∧
    (mkQuote "AAPL" [("09:35", sampleA)]).map (fun q => q.change) = some "0.00" := by
  obtain ⟨q, hq, hc, hp, -⟩ := (quote_change_fields "AAPL" "09:35" sampleA).1 "09:30" sampleB []
  obtain ⟨q1, hq1, hc1, -⟩ := (quote_change_fields "AAPL" "09:35" sampleA).2
  rw [hq, hq1]
  exact ⟨by rw [Option.map_some', hc], by rw [Option.map_some', hp (by decide)],
    by rw [Option.map_some', hc1]⟩

/-- C3: the refresh short-circuits when the API credential is absent or
empty: it issues no request at all and sets the configuration-missing error
message while leaving the quote list unchanged; conversely a request list is
issued exactly when the credential is truthy (non-empty). -/
theorem missing_key_short_circuits (key : Option String) (resp : String → ApiResponse)
    (s : DashState) :
    ((fetchStockData key resp s).2 = [] ↔ jsTruthy key = false) ∧
    (jsTruthy key = false →
      (fetchStockData key resp s).1.error = some apiKeyErr ∧
      (fetchStockData key resp s).1.stocks = s.stocks) := by
  by_cases h : jsTruthy key = true
  · have hmap : (stockSymbols.map fun sym => queryUrl (key.getD "") sym) ≠ [] := by
      simp [stockSymbols]
    cases hc : collectQuotes (stockSymbols.map fun sym => fetchOne sym (resp sym)) with
    | ok qs =>
      refine ⟨?_, by simp [h]⟩
      simp only [fetchStockData, h, if_true, hc]
      simp [h, hmap]
    | error e =>
      refine ⟨?_, by simp [h]⟩
      simp only [fetchStockData, h, if_true, hc]
      simp [h, hmap]
  · have h2 : jsTruthy key = false := by simpa using h
    simp [fetchStockData, h2]

/-- Witness for C3: with no credential at all the refresh issues zero
requests and reports the missing-key error. -/
theorem missing_key_short_circuits_witness :
    (fetchStockData none respGood st0).2 = [] ∧
    (fetchStockData none respGood st0).1.error = some apiKeyErr := by
  refine ⟨(missing_key_short_circuits none respGood st0).1.mpr rfl, ?_⟩
  exact ((missing_key_short_circuits none respGood st0).2 rfl).1

/-- C2: a refresh is all-or-nothing: when every per-symbol fetch succeeds the
new quote list carries exactly one quote per requested symbol, in request
order, with no error; when any single fetch fails the displayed quote list is
left unchanged and an error message is surfaced.  `stockSymbols` has no
duplicates, so "one quote per symbol" is exact. -/
theorem refresh_all_or_nothing (k : String) (resp : String → ApiResponse) (s : DashState)
    (hk : k ≠ "") :
    ((∀ sym ∈ stockSymbols, ∃ q, fetchOne sym (resp sym) = Except.ok q) →
      (fetchStockData (some k) resp s).1.stocks.map (fun q => q.symbol) = stockSymbols ∧
      (fetchStockData (some k) resp s).1.error = none) ∧
    ((∃ sym ∈ stockSymbols, ∃ e, fetchOne sym (resp sym) = Except.error e) →
      (fetchStockData (some k) resp s).1.stocks = s.stocks ∧
      ((fetchStockData (some k) resp s).1.error).isSome = true) ∧
    stockSymbols.Nodup := by
  have hkey : jsTruthy (some k) = true := by simp [jsTruthy, hk]
  refine ⟨?_, ?_, by decide⟩
  · intro hall
    obtain ⟨qs, hc, hm⟩ := collectQuotes_ok (fun sym => fetchOne sym (resp sym)) stockSymbols
      (fun sym hs => by
        obtain ⟨q, hq⟩ := hall sym hs
        exact ⟨q, hq, fetchOne_ok_symbol sym (resp sym) q hq⟩)
    constructor
    · simp only [fetchStockData, hkey, if_true, hc]
      exact hm
    · simp only [fetchStockData, hkey, if_true, hc]
  · rintro ⟨sym, hs, e, he⟩
    obtain ⟨e2, hc⟩ := collectQuotes_error (stockSymbols.map fun sym => fetchOne sym (resp sym))
      ⟨fetchOne sym (resp sym), List.mem_map_of_mem _ hs, e, he⟩
    constructor
    · simp only [fetchStockData, hkey, if_true, hc]
    · simp only [fetchStockData, hkey, if_true, hc]
      rfl

/-- Witness for C2: in an environment where all eight fetches succeed the new
list has exactly the eight requested symbols; in an environment where only
MSFT's fetch fails (HTTP 500) the previous list is kept. -/
theorem refresh_all_or_nothing_witness :
    (fetchStockData (some "key") respGood st0).1.stocks.map (fun q => q.symbol) = stockSymbols ∧
    (fetchStockData (some "key") respBad st0).1.stocks = st0.stocks ∧
    ((fetchStockData (some "key") respBad st0).1.error).isSome = true := by
  have hgood := (refresh_all_or_nothing "key" respGood st0 (by decide)).1
  have hbad := (refresh_all_or_nothing "key" respBad st0 (by decide)).2.1
  refine ⟨(hgood ?_).1, ?_, ?_⟩
  · intro sym hs
    fin_cases hs <;> exact ⟨_, rfl⟩
  · exact (hbad ⟨"MSFT", by decide, FetchErr.http 500, rfl⟩).1
  · exact (hbad ⟨"MSFT", by decide, FetchErr.http 500, rfl⟩).2

/-- C4: each of the four per-request failure modes is detected, in source
order, and rejects that symbol's fetch with its own error kind: a non-success
HTTP status maps to `http status`, a provider-reported error payload to
`provider msg`, a provider rate-limit note to `rateLimited`, and a missing
`Time Series (5min)` member to `noSeries`; the four kinds are pairwise
distinct. -/
theorem failure_modes_classified (sym : String) (r : ApiResponse) :
    (r.ok = false → fetchOne sym r = Except.error (FetchErr.http r.status)) ∧
    (∀ m, r.ok = true → r.errorMessage = some m → m ≠ "" →
      fetchOne sym r = Except.error (FetchErr.provider m)) ∧
    (r.ok = true → jsTruthy r.errorMessage = false → jsTruthy r.note = true →
      fetchOne sym r = Except.error FetchErr.rateLimited) ∧
    (r.ok = true → jsTruthy r.errorMessage = false → jsTruthy r.note = false →
      r.timeSeries = none → fetchOne sym r = Except.error FetchErr.noSeries) ∧
    (∀ (st : Nat) (m : String),
      FetchErr.http st ≠ FetchErr.provider m ∧ FetchErr.http st ≠ FetchErr.rateLimited ∧
      FetchErr.http st ≠ FetchErr.noSeries ∧ FetchErr.provider m ≠ FetchErr.rateLimited ∧
      FetchErr.provider m ≠ FetchErr.noSeries ∧
      (FetchErr.rateLimited : FetchErr) ≠ FetchErr.noSeries) := by
  refine ⟨?_, ?_, ?_, ?_, ?_⟩
  · intro h
    simp [fetchOne, h]
  · intro m hok hm hne
    have ht : jsTruthy (some m) = true := by simp [jsTruthy, hne]
    simp [fetchOne, hok, hm, ht]
  · intro hok hem hn
    simp [fetchOne, hok, hem, hn]
  · intro hok hem hn hts
    simp [fetchOne, hok, hem, hn, hts]
  · intro st m
    refine ⟨?_, ?_, ?_, ?_, ?_, ?_⟩ <;> intro h <;> cases h

/-- Witness for C4: four concrete responses, one per failure mode, each
rejected with its own error kind. -/
theorem failure_modes_classified_witness :
    fetchOne "AAPL" ⟨false, 500, none, none, none⟩ = Except.error (FetchErr.http 500) ∧
    fetchOne "AAPL" ⟨true, 200, some "Invalid API call", none, none⟩ =
      Except.error (FetchErr.provider "Invalid API call") ∧
    fetchOne "AAPL" ⟨true, 200, none, some "API limit", none⟩ =
      Except.error FetchErr.rateLimited ∧
    fetchOne "AAPL" ⟨true, 200, none, none, none⟩ = Except.error FetchErr.noSeries := by
  refine ⟨(failure_modes_classified "AAPL" _).1 rfl, ?_, ?_, ?_⟩
  · exact (failure_modes_classified "AAPL" _).2.1 "Invalid API call" rfl rfl (by decide)
  · exact (failure_modes_classified "AAPL" _).2.2.1 rfl rfl rfl
  · exact (failure_modes_classified "AAPL" _).2.2.2.1 rfl rfl rfl rfl

/-- Counterexample to C5: sorting by volume is not numeric.  Volume strings
are locale-formatted (`"1,000"`), `parseFloat` stops at the first comma, so a
quote with volume 1000 (parsed as 1) sorts before one with volume 999 when
ascending — the opposite of the numeric order 999 < 1000. -/
theorem volume_sort_not_numeric :
    qv999.volume = toLocale 999 ∧ qv1000.volume = toLocale 1000 ∧ (999 : Nat) < 1000 ∧
    sortStocks SortField.volume Dir.asc [qv999, qv1000] = [qv1000, qv999] := by
  refine ⟨rfl, rfl, by decide, by decide⟩

/-- C5 (amended): whenever both compared field values parse as numbers the
comparator orders them by their parsed numeric value — ascending places `a`
before `b` exactly when `parseFloat a ≤ parseFloat b`, and symmetrically for
descending; in particular a quote with price `"9.00"` sorts before one with
price `"10.00"` ascending by price.  This covers price, change and
changePercent, whose `toFixed(2)` strings parse back to their exact values;
it fails for volume only because `parseFloat` truncates the locale-formatted
string at its first comma (see the counterexample). -/
theorem numeric_sort_on_parsed_values :
    (∀ (f : SortField) (a b : Quote) (x y : ℚ),
      parseFloatQ (getField a f) = some x → parseFloatQ (getField b f) = some y →
      ((cmpQuotes f Dir.asc a b = -1 ↔ x ≤ y) ∧ (cmpQuotes f Dir.desc a b = -1 ↔ y ≤ x))) ∧
    sortStocks SortField.price Dir.asc [q10, q9] = [q9, q10] := by
  constructor
  · intro f a b x y hx hy
    constructor
    · simp only [cmpQuotes, hx, hy]
      split
      · rename_i hgt
        simp only [iff_false_intro (not_le.mpr hgt), iff_false]
        decide
      · rename_i hgt
        simp only [iff_true_intro (not_lt.mp hgt), iff_true]
    · simp only [cmpQuotes, hx, hy]
      split
      · rename_i hlt
        simp only [iff_false_intro (not_le.mpr hlt), iff_false]
        decide
      · rename_i hlt
        simp only [iff_true_intro (not_lt.mp hlt), iff_true]
  · decide

/-- Witness for C5 (amended): prices `"9.00"` and `"10.00"` parse to 9 and
10, and the ascending price comparator places the 9-quote first. -/
theorem numeric_sort_on_parsed_values_witness :
    (cmpQuotes SortField.price Dir.asc q9 q10 = -1 ↔ (9 : ℚ) ≤ 10) :=
  (numeric_sort_on_parsed_values.1 SortField.price q9 q10 9 10 (by decide) (by decide)).1

/-- C6: the filter keeps a quote exactly when the lower-cased search term is
a contiguous substring of the lower-cased symbol or of the lower-cased name,
and the empty search term keeps every quote. -/
theorem filter_matches_substring (term : String) (l : List Quote) :
    (∀ q, q ∈ filterStocks term l ↔ q ∈ l ∧
      ((∃ p s, (toLowerStr q.symbol).data = p ++ (toLowerStr term).data ++ s) ∨
       (∃ p s, (toLowerStr q.name).data = p ++ (toLowerStr term).data ++ s))) ∧
    filterStocks "" l = l := by
  constructor
  · intro q
    rw [filterStocks, List.mem_filter]
    rw [Bool.or_eq_true, jsIncludes, jsIncludes, containsSub_iff, containsSub_iff]
  · rw [filterStocks]
    apply List.filter_eq_self.mpr
    intro q hq
    have h1 : toLowerStr "" = "" := rfl
    rw [h1]
    have h2 : ("" : String).data = [] := rfl
    simp [jsIncludes, h2, containsSub_nil]

/-- Witness for C6: the spec's example — the search term `"appl"` keeps the
AAPL quote because `"appl"` occurs in the lower-cased name
`"apple inc."` — and the empty term keeps a concrete two-quote list whole. -/
theorem filter_matches_substring_witness :
    (qOf "AAPL" "1.00" "1" ∈
      filterStocks "appl" [qOf "AAPL" "1.00" "1"] ↔
      qOf "AAPL" "1.00" "1" ∈ [qOf "AAPL" "1.00" "1"] ∧
      ((∃ p s, (toLowerStr (qOf "AAPL" "1.00" "1").symbol).data =
          p ++ (toLowerStr "appl").data ++ s) ∨
       (∃ p s, (toLowerStr (qOf "AAPL" "1.00" "1").name).data =
          p ++ (toLowerStr "appl").data ++ s))) ∧
    filterStocks "" [q9, q10] = [q9, q10] :=
  ⟨(filter_matches_substring "appl" [qOf "AAPL" "1.00" "1"]).1 (qOf "AAPL" "1.00" "1"),
    (filter_matches_substring "" [q9, q10]).2⟩

/-- Counterexample to C7: the code does not sort the timestamp keys; it takes
the series' first two keys in their incidental order.  On a payload whose
keys are oldest-first the code labels 09:30 as the latest sample, while the
spec's sort-descending selection yields 09:35, and the resulting quotes
differ. -/
theorem latest_sample_not_sorted :
    (mkQuote "AAPL" pUnsorted).map (fun q => q.lastUpdated) = some "2024-01-02 09:30:00" ∧
    (mkQuoteSpecSorted "AAPL" pUnsorted).map (fun q => q.lastUpdated) =
      some "2024-01-02 09:35:00" ∧
    mkQuote "AAPL" pUnsorted ≠ mkQuoteSpecSorted "AAPL" pUnsorted := by
  refine ⟨by decide, by decide, by decide⟩

/-- C7 (amended): the code's selection of latest/previous samples agrees with
the spec's explicit sort-descending selection exactly on payloads whose key
order is already descending (most recent first); it is the incidental key
order, not a sort, that the code relies on. -/
theorem selection_agrees_when_sorted (sym : String) (ts : List (String × Sample))
    (h : List.Pairwise (fun a b => strLt a.1 b.1 = false) ts) :
    mkQuote sym ts = mkQuoteSpecSorted sym ts := by
  rw [mkQuoteSpecSorted, List.Sorted.insertionSort_eq h]

/-- Witness for C7 (amended): on the same two samples keyed most-recent-first
the code's quote and the spec's sorted selection coincide. -/
theorem selection_agrees_when_sorted_witness :
    mkQuote "AAPL" pSorted = mkQuoteSpecSorted "AAPL" pSorted :=
  selection_agrees_when_sorted "AAPL" pSorted (by decide)

/-- Counterexample to C8: from the state (field = symbol, direction = asc),
clicking the price header twice leaves the direction descending, not the
ascending it started with — the first click resets to ascending and the
second toggles. -/
theorem toggle_twice_from_other_field :
    (handleSort SortField.price
        (handleSort SortField.price ⟨SortField.symbol, Dir.asc⟩)).direction ≠
      (SortState.mk SortField.symbol Dir.asc).direction := by
  decide

/-- C8 (amended): clicking the currently selected field twice returns the
direction (and field) to its original value, and clicking a field different
from the current one always sets the direction to ascending.  The claim's
universal double-click round-trip fails only from states whose current field
differs from the clicked one and whose direction is ascending (see the
counterexample). -/
theorem toggle_sort_direction :
    (∀ s : SortState,
      (handleSort s.field (handleSort s.field s)).direction = s.direction ∧
      (handleSort s.field (handleSort s.field s)).field = s.field) ∧
    (∀ (f : SortField) (s : SortState), s.field ≠ f →
      (handleSort f s).direction = Dir.asc) := by
  constructor
  · intro s
    obtain ⟨f, d⟩ := s
    cases f <;> cases d <;> exact ⟨rfl, rfl⟩
  · intro f s h
    rw [handleSort]
    have hc : ¬(f = s.field ∧ s.direction = Dir.asc) := fun hc => h hc.1.symm
    simp [hc]

/-- Witness for C8 (amended): double-clicking price from (price, desc) ends
at desc again, and clicking price from (symbol, desc) sets ascending. -/
theorem toggle_sort_direction_witness :
    (handleSort SortField.price
        (handleSort SortField.price ⟨SortField.price, Dir.desc⟩)).direction = Dir.desc ∧
    (handleSort SortField.price ⟨SortField.symbol, Dir.desc⟩).direction = Dir.asc :=
  ⟨(toggle_sort_direction.1 ⟨SortField.price, Dir.desc⟩).1,
    toggle_sort_direction.2 SortField.price ⟨SortField.symbol, Dir.desc⟩ (by decide)⟩

/-- C9: every produced quote's name is the display name from the static
symbol-to-name mapping when the symbol is present there, and the symbol
string itself when it is absent. -/
theorem quote_name_resolution (sym : String) (ts : List (String × Sample)) (q : Quote)
    (h : mkQuote sym ts = some q) : q.name = (companyNames sym).getD sym := by
  cases ts with
  | nil => exact absurd h (by simp [mkQuote])
  | cons a rest =>
    obtain ⟨t0, s0⟩ := a
    rw [mkQuote] at h
    injection h with h2
    subst h2
    exact jsName_eq sym

/-- Witness for C9: TSLA (present in the mapping) resolves to "Tesla Inc.",
and ZZZZ (absent) falls back to "ZZZZ". -/
theorem quote_name_resolution_witness :
    (mkQuote "TSLA" [("t", sampleA)]).map (fun q => q.name) = some "Tesla Inc." ∧
    (mkQuote "ZZZZ" [("t", sampleA)]).map (fun q => q.name) = some "ZZZZ" := by
  constructor
  · cases hq : mkQuote "TSLA" [("t", sampleA)] with
    | none => exact absurd hq (by decide)
    | some q =>
      show some q.name = some "Tesla Inc."
      rw [quote_name_resolution "TSLA" [("t", sampleA)] q hq]
      decide
  · cases hq : mkQuote "ZZZZ" [("t", sampleA)] with
    | none => exact absurd hq (by decide)
    | some q =>
      show some q.name = some "ZZZZ"
      rw [quote_name_resolution "ZZZZ" [("t", sampleA)] q hq]
      decide

/-- C10: for every sort field and direction the comparator returns −1
whenever the two key values are equal, and never returns 0; consequently it
is not a consistent comparator (for two concrete quotes with equal prices it
answers −1 in both argument orders), and sorting a concrete equal-priced
list descending is not the reverse of sorting it ascending. -/
theorem comparator_never_ties :
    (∀ (f : SortField) (d : Dir) (a b : Quote),
      getField a f = getField b f → cmpQuotes f d a b = -1) ∧
    (∀ (f : SortField) (d : Dir) (a b : Quote), cmpQuotes f d a b ≠ 0) ∧
    (cmpQuotes SortField.price Dir.asc qv999 qv1000 = -1 ∧
      cmpQuotes SortField.price Dir.asc qv1000 qv999 = -1) ∧
    sortStocks SortField.price Dir.desc [qv999, qv1000] ≠
      (sortStocks SortField.price Dir.asc [qv999, qv1000]).reverse := by
  refine ⟨?_, ?_, ⟨by decide, by decide⟩, by decide⟩
  · intro f d a b h
    simp only [cmpQuotes, h]
    cases hp : parseFloatQ (getField b f) with
    | some x => cases d <;> simp [lt_irrefl]
    | none => cases d <;> simp [strLt_self]
  · intro f d a b
    simp only [cmpQuotes]
    cases hp : parseFloatQ (getField a f) with
    | some x =>
      cases d <;> cases hq : parseFloatQ (getField b f) <;> simp <;> split <;> decide
    | none =>
      cases d <;> simp <;> split <;> decide

/-- Witness for C10: the two equal-priced quotes compare as −1. -/
theorem comparator_never_ties_witness :
    cmpQuotes SortField.price Dir.asc qv999 qv1000 = -1 :=
  comparator_never_ties.1 SortField.price Dir.asc qv999 qv1000 (by decide)
